import Mathlib

/-!
Shallow embedding of `src/metric.py`, the metric layer of the repository:
pure functions over recorded multi-turn agent transcripts.  Python records
become Lean structures, Python loops become structural recursion or folds,
fallible operations (list indexing, division by zero) return `Except Fault`.
-/

/-!  Spec-side helper predicates, worded after the specification, used to
state the claims about the functions above.  -/

/-- Kinds of synchronous faults the Python code can raise: an out-of-range
list index (`IndexError`) or a division by zero (`ZeroDivisionError`). -/
inductive Fault where
  | indexError
  | divByZero
deriving DecidableEq, Repr

/-- One per-API state record of a `StateSnapshot`: a `class_name` naming the
API plus opaque comparable state content.  The Python code only ever tests
structural equality of these records, so the content is embedded as a
string compared for equality. -/
structure ApiState where
  class_name : String
  content : String
deriving DecidableEq, Repr

/-- Outcome of `json.loads` on a tool-response `content` string, as consumed
by the error predicates of `metric.py`: the string may fail to parse
(`json.loads` raises, caught by the bare `except`), parse to a non-dict value
(`.keys()` then raises `AttributeError`, also caught), or parse to a dict
with a given list of top-level keys.  `'\x7b"error": "timeout"\x7d'` is
`dict ["error"]`; `'not json'` is `malformed`. -/
inductive JsonContent where
  | malformed
  | nonDict
  | dict (keys : List String)
deriving DecidableEq, Repr

/-- One tool-result record inside a step. -/
structure ToolResponse where
  content : JsonContent
deriving DecidableEq, Repr

/-- One step of a turn.  `has_handler_response` embeds the presence of the
`handler_response` key; `assistant_content` embeds
`step["assistant_response"]["content"]`, `none` standing for JSON null. -/
structure Step where
  num_tools : Nat
  tool_response : List ToolResponse
  has_handler_response : Bool
  assistant_content : Option String
deriving DecidableEq, Repr

/-- One turn of a transcript. -/
structure Turn where
  step_responses : List Step
  end_of_turn_state : List ApiState
  num_steps : Nat
deriving DecidableEq, Repr

/-- A whole transcript record (one row of the evaluated frame). -/
structure Transcript where
  turn_responses : List Turn
  ground_truth_log : List (List ApiState)
  error_type : List String
deriving DecidableEq, Repr

/-- The fixed apologetic phrase list `APOLOGETIC_SUBSTRING` of `metric.py`,
verbatim, including the mis-encoded apostrophe entry. -/
def APOLOGETIC_SUBSTRING : List String :=
  ["sorry", "apologize", "cannot", "could not", "couldn\x27t",
   "canâ€™t", "unable", "unfortunately", "not successful", "lacks"]

/-- The fixed known-API list `API_LIST` of `metric.py`. -/
def API_LIST : List String :=
  ["GorillaFileSystem", "MathAPI", "MessageAPI",
   "TwitterAPI", "TicketAPI", "TradingBot",
   "TravelAPI", "VehicleControlAPI"]

/-- Character-wise lower-casing, embedding Python `str.lower()` on the
character range the transcripts use. -/
def strLower (s : String) : String := String.mk (s.data.map Char.toLower)

/-- `charsMatchAt sub hay` holds when `sub` occurs at the very start of
`hay`. -/
def charsMatchAt : List Char → List Char → Bool
  | [], _ => true
  | _ :: _, [] => false
  | a :: as, b :: bs => a == b && charsMatchAt as bs

/-- `charsContain sub hay`: `sub` occurs contiguously somewhere in `hay`,
embedding the Python `in` test on strings. -/
def charsContain (sub : List Char) : List Char → Bool
  | [] => charsMatchAt sub []
  | c :: t => charsMatchAt sub (c :: t) || charsContain sub t

/-- `strHasSub hay sub`: Python `sub in hay` on strings. -/
def strHasSub (hay sub : String) : Bool := charsContain sub.toList hay.toList

/-- Python `str(...)` applied to a decoded JSON field that is either a string
or null: null prints as the four-character string `None`. -/
def strOfContent : Option String → String
  | none => "None"
  | some s => s

/-- The apologetic predicate on one summary string: some phrase of the fixed
list occurs, case-insensitively (`phrase.lower() in turn_summary.lower()`). -/
def matchesApologetic (s : String) : Bool :=
  APOLOGETIC_SUBSTRING.any (fun phrase => strHasSub (strLower s) (strLower phrase))

/-- Loop body of `apologetic`: walk the turns in order; the final step of a
turn is `step_responses[-1]` (faulting on an empty step list); the dead
Python test `turn_summary is None` is omitted because `str(...)` never
returns `None`. -/
def apologeticGo : List Turn → Except Fault Bool
  | [] => Except.ok false
  | t :: rest =>
    match t.step_responses.getLast? with
    | none => Except.error Fault.indexError
    | some lastStep =>
      if matchesApologetic (strOfContent lastStep.assistant_content) then Except.ok true
      else apologeticGo rest

/-- `apologetic` of `metric.py`. -/
def apologetic (df : Transcript) : Except Fault Bool :=
  apologeticGo df.turn_responses

/-- Inner loop of `no_func_call_rate` for one turn: count steps until the
first one carrying a `handler_response` key (`break`). -/
def turnNoCallCount : List Step → Nat
  | [] => 0
  | s :: rest => if s.has_handler_response then 0 else 1 + turnNoCallCount rest

/-- `no_func_call_rate` of `metric.py`: the global no-call step counter
divided by the number of turns (`ZeroDivisionError` on zero turns). -/
def no_func_call_rate (df : Transcript) : Except Fault ℚ :=
  let cnt := (df.turn_responses.map (fun t => turnNoCallCount t.step_responses)).sum
  if df.turn_responses.length = 0 then Except.error Fault.divByZero
  else Except.ok ((cnt : ℚ) / (df.turn_responses.length : ℚ))

/-- `has_error_in_tool_response` of `metric.py`: the content parses as a
JSON dict whose keys include `error`; parse failures yield `false` via the
bare `except`. -/
def has_error_in_tool_response (tr : ToolResponse) : Bool :=
  match tr.content with
  | JsonContent.dict keys => keys.contains "error"
  | _ => false

/-- `num_tool_errors` of `metric.py`: total error-bearing tool responses
across all turns and steps. -/
def num_tool_errors (df : Transcript) : Nat :=
  (df.turn_responses.map (fun t =>
    (t.step_responses.map (fun s => s.tool_response.countP has_error_in_tool_response)).sum)).sum

/-- `num_turn_with_errors` of `metric.py`: number of turns containing at
least one error-bearing tool response. -/
def num_turn_with_errors (df : Transcript) : Nat :=
  df.turn_responses.countP (fun t =>
    t.step_responses.any (fun s => s.tool_response.any has_error_in_tool_response))

/-- Python-dict assignment `state[k] = v` on an association list: overwrite
the entry if the key is present, otherwise append a fresh entry at the end
(insertion-ordered dict semantics). -/
def dictSet (d : List (String × Option Bool)) (k : String) (v : Option Bool) :
    List (String × Option Bool) :=
  if d.any (fun p => decide (p.1 = k)) then
    d.map (fun p => if p.1 = k then (k, v) else p)
  else d ++ [(k, v)]

/-- Python-dict lookup on the association list built by `dictSet`. -/
def lookupDict : List (String × Option Bool) → String → Option (Option Bool)
  | [], _ => none
  | p :: rest, k => if p.1 = k then some p.2 else lookupDict rest k

/-- One turn of the mismatch loop of `check_api_state_mismatch`: walk the
positional pairs `zip(gt_states, turn_states)` and on any structural
inequality set the ground-truth entry's `class_name` to mismatch. -/
def markMismatchTurn (st : List (String × Option Bool))
    (gts turn_states : List ApiState) : List (String × Option Bool) :=
  (List.zip gts turn_states).foldl
    (fun acc p => if p.1 ≠ p.2 then dictSet acc p.1.class_name (some true) else acc) st

/-- Turn loop of `check_api_state_mismatch` in the well-formed-length branch:
enumerate turns, read `ground_truth_log[turn_idx + 1]`, mark mismatches. -/
def checkGo (gt : List (List ApiState)) :
    List (Nat × Turn) → List (String × Option Bool) →
    Except Fault (List (String × Option Bool))
  | [], st => Except.ok st
  | (i, t) :: rest, st =>
    match gt.get? (i + 1) with
    | none => Except.error Fault.indexError
    | some gts => checkGo gt rest (markMismatchTurn st gts t.end_of_turn_state)

/-- `check_api_state_mismatch` of `metric.py`.  The Python dict value
`np.nan` is embedded as `none`, `False` as `some false`, `True` as
`some true`; the source wraps `state.values()` into a `pd.Series`, here the
insertion-ordered dict itself is returned.  Reading
`turn_responses[0]` faults on a transcript with no turns. -/
def check_api_state_mismatch (df : Transcript) :
    Except Fault (List (String × Option Bool)) :=
  match df.turn_responses.get? 0 with
  | none => Except.error Fault.indexError
  | some turn0 =>
    let state0 := API_LIST.map (fun a => (a, (none : Option Bool)))
    let api_list := turn0.end_of_turn_state.map (fun e => e.class_name)
    let state1 := api_list.foldl (fun st a => dictSet st a (some false)) state0
    if df.ground_truth_log.length ≠ df.turn_responses.length + 1 then
      Except.ok (api_list.foldl (fun st a => dictSet st a (some true)) state1)
    else
      checkGo df.ground_truth_log df.turn_responses.enum state1

/-- The result value of `task_process_rate`: a rational, or the Python float
positive infinity sentinel. -/
inductive RateVal where
  | val (q : ℚ)
  | posInf
deriving DecidableEq, Repr

/-- Turn loop of `task_process_rate`: on the first enumerated turn whose
positional pairs `zip(end_of_turn_state, ground_truth_log[i+1])` contain an
inequality, return `i / n`. -/
def tprGo (gt : List (List ApiState)) (n : Nat) :
    List (Nat × Turn) → Except Fault RateVal
  | [] => Except.ok RateVal.posInf
  | (i, t) :: rest =>
    match gt.get? (i + 1) with
    | none => Except.error Fault.indexError
    | some truth =>
      if (List.zip t.end_of_turn_state truth).any (fun p => !(p.1 == p.2)) then
        Except.ok (RateVal.val ((i : ℚ) / (n : ℚ)))
      else tprGo gt n rest

/-- `task_process_rate` of `metric.py`. -/
def task_process_rate (df : Transcript) : Except Fault RateVal :=
  tprGo df.ground_truth_log df.turn_responses.length df.turn_responses.enum

/-- Turn loop of `average_turn_success_rate`: count the enumerated turns all
of whose positional pairs are structurally equal. -/
def atsrGo (gt : List (List ApiState)) : List (Nat × Turn) → Except Fault Nat
  | [] => Except.ok 0
  | (i, t) :: rest =>
    match gt.get? (i + 1) with
    | none => Except.error Fault.indexError
    | some truth =>
      match atsrGo gt rest with
      | Except.error e => Except.error e
      | Except.ok s =>
        Except.ok ((if (List.zip t.end_of_turn_state truth).all (fun p => p.1 == p.2)
                    then 1 else 0) + s)

/-- `average_turn_success_rate` of `metric.py`: fully matching turns divided
by the number of turns (`ZeroDivisionError` on zero turns). -/
def average_turn_success_rate (df : Transcript) : Except Fault ℚ :=
  match atsrGo df.ground_truth_log df.turn_responses.enum with
  | Except.error e => Except.error e
  | Except.ok score =>
    if df.turn_responses.length = 0 then Except.error Fault.divByZero
    else Except.ok ((score : ℚ) / (df.turn_responses.length : ℚ))

/-- Turn loop of `soft_average_turn_success_rate`, carrying the running
score and the index of the most recent incorrect turn (`none` embeds the
initial `float("inf")`, under which every correct turn scores a full
point). -/
noncomputable def softGo (gt : List (List ApiState)) :
    List (Nat × Turn) → ℝ → Option Nat → Except Fault ℝ
  | [], score, _ => Except.ok score
  | (i, t) :: rest, score, lastBad =>
    match gt.get? (i + 1) with
    | none => Except.error Fault.indexError
    | some truth =>
      if (List.zip t.end_of_turn_state truth).all (fun p => p.1 == p.2) then
        match lastBad with
        | none => softGo gt rest (score + 1) lastBad
        | some l =>
          if i < l then softGo gt rest (score + 1) lastBad
          else softGo gt rest (score + (1 - Real.exp (-((i : ℝ) - (l : ℝ))))) lastBad
      else softGo gt rest score (some i)

/-- `soft_average_turn_success_rate` of `metric.py`: like the average rate
but a correct turn after an incorrect one contributes
`1 - exp(-(turn_idx - last_incorrect_turn))`. -/
noncomputable def soft_average_turn_success_rate (df : Transcript) : Except Fault ℝ :=
  match softGo df.ground_truth_log df.turn_responses.enum 0 none with
  | Except.error e => Except.error e
  | Except.ok score =>
    if df.turn_responses.length = 0 then Except.error Fault.divByZero
    else Except.ok (score / (df.turn_responses.length : ℝ))

/-- The positional comparison of turn `i` of a transcript finds some
structurally unequal pair (mismatch), reading the prediction from
`turn_responses[i].end_of_turn_state` and the truth from
`ground_truth_log[i+1]`; out-of-range indices yield `false`. -/
def stateMismatchAt (df : Transcript) (i : Nat) : Bool :=
  match df.turn_responses.get? i, df.ground_truth_log.get? (i + 1) with
  | some t, some truth =>
    (List.zip t.end_of_turn_state truth).any (fun p => !(p.1 == p.2))
  | _, _ => false

/-- Every positional pair of turn `i` compares structurally equal and both
indices are in range (a fully matching turn). -/
def turnMatchB (df : Transcript) (i : Nat) : Bool :=
  match df.turn_responses.get? i, df.ground_truth_log.get? (i + 1) with
  | some t, some truth =>
    (List.zip t.end_of_turn_state truth).all (fun p => p.1 == p.2)
  | _, _ => false

/-- Zero-based index of the first turn whose positional comparison finds a
mismatch, if any. -/
def firstMismatchIdx (df : Transcript) : Option Nat :=
  (List.range df.turn_responses.length).find? (fun i => stateMismatchAt df i)

/-- The API name occurs in the first turn's `end_of_turn_state`. -/
def inFirstTurnState (df : Transcript) (a : String) : Bool :=
  match df.turn_responses.head? with
  | some t => t.end_of_turn_state.any (fun e => decide (e.class_name = a))
  | none => false

/-- The API name occurs in some turn's `end_of_turn_state` of the
transcript. -/
def apiAppears (df : Transcript) (a : String) : Bool :=
  df.turn_responses.any (fun t =>
    t.end_of_turn_state.any (fun e => decide (e.class_name = a)))

/-- A turn, taken alone, has an apologetic closing message: its final step's
assistant message, stringified, matches a phrase of the fixed list. -/
def turnApologetic (t : Turn) : Bool :=
  match t.step_responses.getLast? with
  | some st => matchesApologetic (strOfContent st.assistant_content)
  | none => false

/-- A one-turn transcript whose only step closes with a null assistant
message (`assistant_response.content` is JSON null). -/
def df7c : Transcript :=
  { turn_responses :=
      [{ step_responses :=
           [{ num_tools := 0, tool_response := [],
              has_handler_response := false, assistant_content := none }],
         end_of_turn_state := [], num_steps := 1 }],
    ground_truth_log := [[], []],
    error_type := [] }

/-- A one-turn transcript closing with the message
`I cannot complete this`. -/
def df7w : Transcript :=
  { turn_responses :=
      [{ step_responses :=
           [{ num_tools := 0, tool_response := [],
              has_handler_response := false,
              assistant_content := some "I cannot complete this" }],
         end_of_turn_state := [], num_steps := 1 }],
    ground_truth_log := [[], []],
    error_type := [] }

/-- A two-turn transcript: the first turn has tool responses
`dict ["error"]` (the parse of `'\x7b"error": "timeout"\x7d'`),
`dict ["error", "msg"]`, and a malformed content; the second turn has only
a malformed and a non-dict content. -/
def df8c : Transcript :=
  { turn_responses :=
      [{ step_responses :=
           [{ num_tools := 1,
              tool_response :=
                [{ content := JsonContent.dict ["error"] },
                 { content := JsonContent.dict ["error", "msg"] },
                 { content := JsonContent.malformed }],
              has_handler_response := true, assistant_content := some "done" }],
         end_of_turn_state := [], num_steps := 1 },
       { step_responses :=
           [{ num_tools := 0,
              tool_response :=
                [{ content := JsonContent.malformed },
                 { content := JsonContent.nonDict }],
              has_handler_response := false, assistant_content := some "done" }],
         end_of_turn_state := [], num_steps := 1 }],
    ground_truth_log := [[], [], []],
    error_type := [] }

/-- A two-turn transcript: the first turn has two plain steps, then a
function-calling step, then another plain step; the second turn opens with
a function-calling step. -/
def df9w : Transcript :=
  { turn_responses :=
      [{ step_responses :=
           [{ num_tools := 0, tool_response := [],
              has_handler_response := false, assistant_content := some "a" },
            { num_tools := 0, tool_response := [],
              has_handler_response := false, assistant_content := some "b" },
            { num_tools := 1, tool_response := [],
              has_handler_response := true, assistant_content := some "c" },
            { num_tools := 0, tool_response := [],
              has_handler_response := false, assistant_content := some "d" }],
         end_of_turn_state := [], num_steps := 4 },
       { step_responses :=
           [{ num_tools := 1, tool_response := [],
              has_handler_response := true, assistant_content := some "e" }],
         end_of_turn_state := [], num_steps := 1 }],
    ground_truth_log := [[], [], []],
    error_type := [] }

/-- The per-turn condition under which `checkGo` marks key `k` at an
enumerated turn. -/
def turnMarksKey (gt : List (List ApiState)) (k : String) (it : Nat × Turn) : Bool :=
  match gt.get? (it.1 + 1) with
  | some gts =>
    (List.zip gts it.2.end_of_turn_state).any
      (fun p => decide (p.1 ≠ p.2) && decide (p.1.class_name = k))
  | none => false

/-- Some turn has a structurally unequal positional pair whose ground-truth
element carries class name `a` (the condition under which
`check_api_state_mismatch` marks `a` as mismatch in the well-formed-length
branch). -/
def gtMismatchMarked (df : Transcript) (a : String) : Bool :=
  df.turn_responses.enum.any (turnMarksKey df.ground_truth_log a)

/-- A state record for the file-system API. -/
def stA : ApiState := { class_name := "GorillaFileSystem", content := "s" }

/-- A state record for the math API. -/
def stB : ApiState := { class_name := "MathAPI", content := "s" }

/-- Two turns; `MathAPI` appears only in the SECOND turn's
`end_of_turn_state`; the length invariant holds and every compared pair is
equal. -/
def df1c : Transcript :=
  { turn_responses :=
      [{ step_responses := [], end_of_turn_state := [stA], num_steps := 1 },
       { step_responses := [], end_of_turn_state := [stA, stB], num_steps := 1 }],
    ground_truth_log := [[stA], [stA], [stA]],
    error_type := [] }

/-- A zero-turn transcript whose ground-truth log satisfies the length
invariant. -/
def df1e : Transcript :=
  { turn_responses := [], ground_truth_log := [[]], error_type := [] }

/-- Two turns with `MathAPI` appearing only in the second turn, and an
empty ground-truth log (length invariant violated). -/
def df2c : Transcript :=
  { turn_responses :=
      [{ step_responses := [], end_of_turn_state := [stA], num_steps := 1 },
       { step_responses := [], end_of_turn_state := [stA, stB], num_steps := 1 }],
    ground_truth_log := [],
    error_type := [] }

/-- A zero-turn transcript with the length invariant violated. -/
def df2e : Transcript :=
  { turn_responses := [], ground_truth_log := [], error_type := [] }

/-- A one-turn transcript with an empty ground-truth log. -/
def df3e : Transcript :=
  { turn_responses :=
      [{ step_responses := [], end_of_turn_state := [stA], num_steps := 1 }],
    ground_truth_log := [],
    error_type := [] }

/-- A one-turn transcript whose predicted state mismatches ground truth at
turn 0. -/
def df3w : Transcript :=
  { turn_responses :=
      [{ step_responses := [], end_of_turn_state := [stB], num_steps := 1 }],
    ground_truth_log := [[stA], [stA]],
    error_type := [] }

/-- A one-turn transcript with an empty ground-truth log, for the average
rate. -/
def df4e : Transcript :=
  { turn_responses :=
      [{ step_responses := [], end_of_turn_state := [stA], num_steps := 2 }],
    ground_truth_log := [],
    error_type := [] }

/-- A two-turn transcript where turn 0 matches ground truth and turn 1 does
not. -/
def df4w : Transcript :=
  { turn_responses :=
      [{ step_responses := [], end_of_turn_state := [stA], num_steps := 1 },
       { step_responses := [], end_of_turn_state := [stB], num_steps := 1 }],
    ground_truth_log := [[stA], [stA], [stA]],
    error_type := [] }

/-- The three-turn scenario of the spec: turn 0 mismatches, turns 1 and 2
match. -/
def df5c : Transcript :=
  { turn_responses :=
      [{ step_responses := [], end_of_turn_state := [stB], num_steps := 1 },
       { step_responses := [], end_of_turn_state := [stA], num_steps := 1 },
       { step_responses := [], end_of_turn_state := [stA], num_steps := 1 }],
    ground_truth_log := [[stA], [stA], [stA], [stA]],
    error_type := [] }

/-- A one-turn transcript whose only turn fully matches ground truth. -/
def df6w : Transcript :=
  { turn_responses :=
      [{ step_responses := [], end_of_turn_state := [stA], num_steps := 1 }],
    ground_truth_log := [[stA], [stA]],
    error_type := [] }

/-- A one-turn transcript with prediction `pred`, ground-truth end-of-turn
snapshot `truth`, and initial snapshot `g0` (length invariant holds:
2 = 1 + 1). -/
def df10 (pred truth g0 : List ApiState) : Transcript :=
  { turn_responses :=
      [{ step_responses := [], end_of_turn_state := pred, num_steps := 1 }],
    ground_truth_log := [g0, truth],
    error_type := [] }

/-- The short-circuiting turn loop of `apologetic` computes exactly the
existential over turns of `turnApologetic`, provided no turn has an empty
step list. -/
theorem apologeticGo_spec (l : List Turn) (h : ∀ t ∈ l, t.step_responses ≠ []) :
    apologeticGo l = Except.ok (l.any turnApologetic) := by
  induction l with
  | nil => rfl
  | cons t rest ih =>
    have ht : t.step_responses ≠ [] := h t (by simp)
    obtain ⟨st, hst⟩ : ∃ st, t.step_responses.getLast? = some st := by
      cases hcase : t.step_responses.getLast? with
      | none => exact absurd (List.getLast?_eq_none_iff.mp hcase) ht
      | some st => exact ⟨st, rfl⟩
    have hrest := ih (fun t' ht' => h t' (List.mem_cons_of_mem _ ht'))
    by_cases hm : matchesApologetic (strOfContent st.assistant_content) = true
    · simp [apologeticGo, hst, hm, List.any_cons, turnApologetic]
    · simp only [Bool.not_eq_true] at hm
      simp [apologeticGo, hst, hm, List.any_cons, turnApologetic, hrest]

/-- The inner step counter of `no_func_call_rate` counts exactly the steps
before the first step carrying a `handler_response` key. -/
theorem turnNoCallCount_eq_takeWhile (l : List Step) :
    turnNoCallCount l = (l.takeWhile (fun s => !s.has_handler_response)).length := by
  induction l with
  | nil => rfl
  | cons s rest ih =>
    by_cases h : s.has_handler_response
    · simp [turnNoCallCount, List.takeWhile_cons, h]
    · simp only [Bool.not_eq_true] at h
      simp [turnNoCallCount, List.takeWhile_cons, h, ih, Nat.add_comm]

/-- C7 counterexample: on a transcript whose single closing assistant
message is null, `apologetic` returns `false`, because Python first applies
`str(...)`, turning null into the string `None`, which matches no phrase;
the claim says a null closing message makes `apologetic` return true. -/
theorem c7_apologetic_counterexample :
    (df7c.turn_responses.map (fun t => t.step_responses.map
      (fun s => s.assistant_content))) = [[none]] ∧
    apologetic df7c = Except.ok false := by
  exact ⟨rfl, rfl⟩

/-- C7 (amended): `apologetic` returns true exactly when some turn's final
step's assistant message, stringified (null becoming the string `None`,
which matches no phrase), contains a phrase of the fixed list
case-insensitively; only each turn's last step is examined, and the scan
short-circuits at the first matching turn.  A turn with an empty step list
would instead fault on `step_responses[-1]`. -/
theorem c7_apologetic_amended (df : Transcript)
    (h : ∀ t ∈ df.turn_responses, t.step_responses ≠ []) :
    apologetic df = Except.ok (df.turn_responses.any turnApologetic) :=
  apologeticGo_spec df.turn_responses h

/-- Witness for the amended C7 theorem at a concrete transcript. -/
theorem c7_apologetic_witness :
    (∀ t ∈ df7w.turn_responses, t.step_responses ≠ []) ∧
    apologetic df7w = Except.ok true := by
  refine ⟨by decide, ?_⟩
  rw [c7_apologetic_amended df7w (by decide)]
  rfl

/-- C8: error-bearing tool responses (content parsing to a JSON dict with an
`error` key) are counted by `num_tool_errors` and make their turn count in
`num_turn_with_errors`; contents that fail to parse are counted by neither
and cause no fault; and `num_turn_with_errors` counts each turn at most
once (it never exceeds the number of turns). -/
theorem c8_tool_error_counting :
    num_tool_errors df8c = 2 ∧ num_turn_with_errors df8c = 1 ∧
    ∀ df : Transcript, num_turn_with_errors df ≤ df.turn_responses.length := by
  refine ⟨rfl, rfl, fun df => ?_⟩
  unfold num_turn_with_errors
  exact List.countP_le_length _

/-- C9: for a transcript with at least one turn, `no_func_call_rate` is the
number of steps occurring before the first `handler_response`-carrying step
of their turn (summed over all turns, each such step counted once), divided
by the number of turns. -/
theorem c9_no_func_call_rate (df : Transcript) (h : df.turn_responses ≠ []) :
    no_func_call_rate df = Except.ok
      ((((df.turn_responses.map (fun t =>
          (t.step_responses.takeWhile (fun s => !s.has_handler_response)).length)).sum : ℕ) : ℚ)
        / (df.turn_responses.length : ℚ)) := by
  unfold no_func_call_rate
  have hlen : df.turn_responses.length ≠ 0 := by
    simpa using h
  simp [hlen, turnNoCallCount_eq_takeWhile]

/-- Witness for the C9 theorem at a concrete transcript: 2 no-call steps
over 2 turns give rate 1. -/
theorem c9_no_func_call_rate_witness :
    df9w.turn_responses ≠ [] ∧ no_func_call_rate df9w = Except.ok 1 := by
  refine ⟨by decide, ?_⟩
  rw [c9_no_func_call_rate df9w (by decide)]
  norm_num [df9w]

theorem lookupDict_map_set_ne (d : List (String × Option Bool)) (k v k')
    (h : k' ≠ k) :
    lookupDict (d.map (fun p => if p.1 = k then (k, v) else p)) k' =
      lookupDict d k' := by
  induction d with
  | nil => rfl
  | cons p rest ih =>
    by_cases hp : p.1 = k
    · simp [lookupDict, hp, h, Ne.symm h, ih]
    · simp [lookupDict, hp, ih]

theorem lookupDict_map_set_self (d : List (String × Option Bool)) (k v)
    (h : d.any (fun p => decide (p.1 = k)) = true) :
    lookupDict (d.map (fun p => if p.1 = k then (k, v) else p)) k = some v := by
  induction d with
  | nil => simp at h
  | cons p rest ih =>
    by_cases hp : p.1 = k
    · simp [lookupDict, hp]
    · have hrest : rest.any (fun p => decide (p.1 = k)) = true := by
        simp only [List.any_cons, Bool.or_eq_true] at h
        rcases h with h | h
        · exact absurd (by simpa using h) hp
        · exact h
      simp [lookupDict, hp, ih hrest]

theorem lookupDict_eq_none_of_absent (d : List (String × Option Bool)) (k)
    (h : d.any (fun p => decide (p.1 = k)) = false) : lookupDict d k = none := by
  induction d with
  | nil => rfl
  | cons p rest ih =>
    simp only [List.any_cons, Bool.or_eq_false_iff] at h
    have hp : ¬p.1 = k := by simpa using h.1
    simp [lookupDict, hp, ih h.2]

theorem lookupDict_append (d l : List (String × Option Bool)) (k) :
    lookupDict (d ++ l) k =
      match lookupDict d k with
      | some x => some x
      | none => lookupDict l k := by
  induction d with
  | nil => rfl
  | cons p rest ih =>
    by_cases hp : p.1 = k
    · simp [lookupDict, hp]
    · simp [lookupDict, hp, ih]

/-- Python-dict lookup after a single assignment. -/
theorem lookupDict_dictSet (d : List (String × Option Bool)) (k v k') :
    lookupDict (dictSet d k v) k' = if k' = k then some v else lookupDict d k' := by
  unfold dictSet
  by_cases hany : d.any (fun p => decide (p.1 = k)) = true
  · simp only [hany, if_true]
    by_cases hk : k' = k
    · subst hk; simp [lookupDict_map_set_self d k' v hany]
    · simp [hk, lookupDict_map_set_ne d k v k' hk]
  · have hany' : d.any (fun p => decide (p.1 = k)) = false := Bool.eq_false_iff.mpr hany
    simp only [hany', Bool.false_eq_true, if_false]
    rw [lookupDict_append]
    by_cases hk : k' = k
    · subst hk
      rw [lookupDict_eq_none_of_absent d k' hany']
      simp [lookupDict]
    · cases hcase : lookupDict d k' with
      | some x => simp [hcase, hk]
      | none =>
        rw [if_neg hk]
        show lookupDict [(k, v)] k' = none
        simp only [lookupDict]
        rw [if_neg (fun h => hk h.symm)]

/-- Python-dict lookup after assigning the same value to every key of a
list, in order. -/
theorem lookupDict_foldl_set (v : Option Bool) :
    ∀ (L : List String) (d : List (String × Option Bool)) (k : String),
    lookupDict (L.foldl (fun st a => dictSet st a v) d) k =
      if k ∈ L then some v else lookupDict d k := by
  intro L
  induction L with
  | nil => intro d k; simp
  | cons a rest ih =>
    intro d k
    simp only [List.foldl_cons]
    rw [ih, lookupDict_dictSet]
    by_cases hk : k = a
    · by_cases hmem : k ∈ rest <;> simp [hmem, hk, List.mem_cons]
    · by_cases hmem : k ∈ rest <;> simp [hmem, hk, List.mem_cons]

/-- Lookup in the initial all-`nan` dict built from a key list. -/
theorem lookupDict_init (L : List String) (k : String) :
    lookupDict (L.map (fun a => (a, (none : Option Bool)))) k =
      if k ∈ L then some none else none := by
  induction L with
  | nil => rfl
  | cons a rest ih =>
    by_cases hk : k = a
    · simp [lookupDict, hk, List.mem_cons]
    · have hk2 : ¬a = k := fun h => hk h.symm
      simp [lookupDict, hk2, ih, List.mem_cons, hk]

/-- Lookup after one turn's mismatch-marking pass: the key reads as mismatch
exactly when some positional pair of the turn is unequal with that key as
the ground-truth element's class name; otherwise the dict is unchanged at
that key. -/
theorem lookupDict_foldl_mark (k : String) :
    ∀ (l : List (ApiState × ApiState)) (d : List (String × Option Bool)),
    lookupDict (l.foldl
        (fun acc p => if p.1 ≠ p.2 then dictSet acc p.1.class_name (some true) else acc) d) k =
      if l.any (fun p => decide (p.1 ≠ p.2) && decide (p.1.class_name = k))
      then some (some true) else lookupDict d k := by
  intro l
  induction l with
  | nil => intro d; simp
  | cons p rest ih =>
    intro d
    simp only [List.foldl_cons, List.any_cons]
    by_cases hne : p.1 = p.2
    · have h1 : decide (p.1 ≠ p.2) = false := decide_eq_false (fun hc => hc hne)
      rw [if_neg (fun hc : p.1 ≠ p.2 => hc hne), ih]
      simp only [h1, Bool.false_and, Bool.false_or]
    · have h1 : decide (p.1 ≠ p.2) = true := decide_eq_true hne
      by_cases hcls : p.1.class_name = k
      · have h2 : decide (p.1.class_name = k) = true := decide_eq_true hcls
        rw [if_pos hne, ih, lookupDict_dictSet, if_pos hcls.symm]
        simp only [h1, h2, Bool.true_and, Bool.true_or]
        simp
      · have h2 : decide (p.1.class_name = k) = false := decide_eq_false hcls
        rw [if_pos hne, ih, lookupDict_dictSet,
          if_neg (fun hk : k = p.1.class_name => hcls hk.symm)]
        simp only [h1, h2, Bool.true_and, Bool.and_false, Bool.false_or]

theorem lookupDict_markMismatchTurn (d : List (String × Option Bool))
    (gts ts : List ApiState) (k : String) :
    lookupDict (markMismatchTurn d gts ts) k =
      if (List.zip gts ts).any
          (fun p => decide (p.1 ≠ p.2) && decide (p.1.class_name = k))
      then some (some true) else lookupDict d k :=
  lookupDict_foldl_mark k (List.zip gts ts) d

/-- Characterization of the turn loop of `check_api_state_mismatch` when
every enumerated turn's ground-truth index is in range: the loop returns
normally, and a key reads as mismatch exactly when some turn marks it;
otherwise the incoming dict is unchanged at that key. -/
theorem checkGo_spec (gt : List (List ApiState)) :
    ∀ (l : List (Nat × Turn)) (d : List (String × Option Bool)),
    (∀ it ∈ l, (gt.get? (it.1 + 1)).isSome) →
    ∃ m, checkGo gt l d = Except.ok m ∧ ∀ k, lookupDict m k =
      if l.any (turnMarksKey gt k) then some (some true) else lookupDict d k := by
  intro l
  induction l with
  | nil => intro d _; exact ⟨d, rfl, by simp⟩
  | cons it rest ih =>
    intro d h
    obtain ⟨i, t⟩ := it
    have hhead : (gt.get? (i + 1)).isSome := h (i, t) (by simp)
    obtain ⟨gts, hgts⟩ : ∃ gts, gt.get? (i + 1) = some gts :=
      Option.isSome_iff_exists.mp hhead
    obtain ⟨m, hm, hchar⟩ :=
      ih (markMismatchTurn d gts t.end_of_turn_state)
         (fun it' hit' => h it' (List.mem_cons_of_mem _ hit'))
    refine ⟨m, ?_, ?_⟩
    · simp only [checkGo, hgts]
      exact hm
    · intro k
      rw [hchar k, lookupDict_markMismatchTurn]
      have hgts2 : gt[i + 1]? = some gts := by simpa using hgts
      have hheadcond : turnMarksKey gt k (i, t) =
          (List.zip gts t.end_of_turn_state).any
            (fun p => decide (p.1 ≠ p.2) && decide (p.1.class_name = k)) := by
        simp [turnMarksKey, hgts2]
      simp only [List.any_cons, hheadcond]
      by_cases hrest : rest.any (turnMarksKey gt k) = true
      · rw [hrest]
        simp
      · have hrest' := Bool.eq_false_iff.mpr hrest
        rw [hrest']
        by_cases hh : (List.zip gts t.end_of_turn_state).any
            (fun p => decide (p.1 ≠ p.2) && decide (p.1.class_name = k)) = true
        · rw [hh]
          simp
        · have hh' := Bool.eq_false_iff.mpr hh
          rw [hh']
          simp

/-- Under the length invariant, every enumerated turn's ground-truth index
is in range. -/
theorem enum_gt_isSome (df : Transcript)
    (h2 : df.ground_truth_log.length = df.turn_responses.length + 1) :
    ∀ it ∈ df.turn_responses.enum, (df.ground_truth_log.get? (it.1 + 1)).isSome := by
  intro it hit
  have h1 : df.turn_responses[it.1]? = some it.2 := List.mem_enum_iff_getElem?.mp hit
  have hlt : it.1 < df.turn_responses.length := by
    rcases List.getElem?_eq_some_iff.mp h1 with ⟨h, _⟩
    exact h
  have hlt2 : it.1 + 1 < df.ground_truth_log.length := by omega
  have hsome : ∃ x, df.ground_truth_log[it.1 + 1]? = some x :=
    ⟨_, List.getElem?_eq_some_iff.mpr ⟨hlt2, rfl⟩⟩
  obtain ⟨x, hx⟩ := hsome
  rw [List.get?_eq_getElem?, hx]
  rfl

/-- C1 (amended): with at least one turn and the length invariant holding,
`check_api_state_mismatch` returns a dict in which an API reads mismatch
exactly when some turn has a structurally unequal positional pair whose
ground-truth element carries its class name (so once marked it stays
marked), reads no-mismatch exactly when it is unmarked but appears in the
FIRST turn's `end_of_turn_state`, and reads not-applicable exactly when it
is neither marked nor present in the first turn's `end_of_turn_state`
(known APIs read `nan`; unknown class names are simply absent). -/
theorem c1_check_api_state_mismatch_amended (df : Transcript)
    (h1 : df.turn_responses ≠ [])
    (h2 : df.ground_truth_log.length = df.turn_responses.length + 1) :
    ∃ m, check_api_state_mismatch df = Except.ok m ∧ ∀ a : String,
      lookupDict m a =
        if gtMismatchMarked df a then some (some true)
        else if inFirstTurnState df a then some (some false)
        else if a ∈ API_LIST then some none
        else none := by
  obtain ⟨t0, rest, hcons⟩ : ∃ t0 rest, df.turn_responses = t0 :: rest := by
    cases hc : df.turn_responses with
    | nil => exact absurd hc h1
    | cons t0 rest => exact ⟨t0, rest, rfl⟩
  have hget0 : df.turn_responses.get? 0 = some t0 := by rw [hcons]; rfl
  have hne : ¬(df.ground_truth_log.length ≠ df.turn_responses.length + 1) :=
    fun hc => hc h2
  obtain ⟨m, hm, hchar⟩ := checkGo_spec df.ground_truth_log df.turn_responses.enum
      ((t0.end_of_turn_state.map (fun e => e.class_name)).foldl
        (fun st a => dictSet st a (some false))
        (API_LIST.map (fun a => (a, (none : Option Bool)))))
      (enum_gt_isSome df h2)
  refine ⟨m, ?_, ?_⟩
  · simp only [check_api_state_mismatch, hget0]
    rw [if_neg hne]
    exact hm
  · intro a
    rw [hchar a, lookupDict_foldl_set, lookupDict_init]
    have hfirst : (a ∈ t0.end_of_turn_state.map (fun e => e.class_name)) ↔
        inFirstTurnState df a = true := by
      simp [inFirstTurnState, hcons, List.mem_map]
    have hany : df.turn_responses.enum.any (turnMarksKey df.ground_truth_log a) =
        gtMismatchMarked df a := rfl
    rw [hany]
    by_cases hg : gtMismatchMarked df a = true
    · rw [hg]; simp
    · have hg' := Bool.eq_false_iff.mpr hg
      rw [hg']
      simp only [Bool.false_eq_true, if_false]
      by_cases hf : inFirstTurnState df a = true
      · rw [if_pos (hfirst.mpr hf), hf]
        simp
      · have hf' := Bool.eq_false_iff.mpr hf
        rw [if_neg (fun hc => hf (hfirst.mp hc)), hf']
        simp

/-- C1 counterexample: `MathAPI` appears in a turn's `end_of_turn_state`
(the second turn's) yet `check_api_state_mismatch` still reports it
not-applicable, because the code derives the observed-API list from the
FIRST turn only; and on a zero-turn transcript the function faults instead
of returning a mapping. -/
theorem c1_check_counterexample :
    apiAppears df1c "MathAPI" = true ∧
    (∃ m, check_api_state_mismatch df1c = Except.ok m ∧
      lookupDict m "MathAPI" = some none) ∧
    check_api_state_mismatch df1e = Except.error Fault.indexError := by
  refine ⟨rfl,
    ⟨[("GorillaFileSystem", some false), ("MathAPI", none), ("MessageAPI", none),
      ("TwitterAPI", none), ("TicketAPI", none), ("TradingBot", none),
      ("TravelAPI", none), ("VehicleControlAPI", none)], rfl, rfl⟩, rfl⟩

/-- Witness for the amended C1 theorem at the concrete transcript `df1c`. -/
theorem c1_check_witness :
    ∃ m, check_api_state_mismatch df1c = Except.ok m ∧ ∀ a : String,
      lookupDict m a =
        if gtMismatchMarked df1c a then some (some true)
        else if inFirstTurnState df1c a then some (some false)
        else if a ∈ API_LIST then some none
        else none :=
  c1_check_api_state_mismatch_amended df1c (by decide) (by decide)

/-- C2 (amended): on a transcript with at least one turn whose
turn/ground-truth length invariant is violated, `check_api_state_mismatch`
marks exactly the APIs appearing in the FIRST turn's `end_of_turn_state` as
mismatch; all other known APIs read not-applicable. -/
theorem c2_check_length_violation_amended (df : Transcript)
    (h1 : df.turn_responses ≠ [])
    (h2 : df.ground_truth_log.length ≠ df.turn_responses.length + 1) :
    ∃ m, check_api_state_mismatch df = Except.ok m ∧ ∀ a : String,
      lookupDict m a =
        if inFirstTurnState df a then some (some true)
        else if a ∈ API_LIST then some none
        else none := by
  obtain ⟨t0, rest, hcons⟩ : ∃ t0 rest, df.turn_responses = t0 :: rest := by
    cases hc : df.turn_responses with
    | nil => exact absurd hc h1
    | cons t0 rest => exact ⟨t0, rest, rfl⟩
  have hget0 : df.turn_responses.get? 0 = some t0 := by rw [hcons]; rfl
  refine ⟨((t0.end_of_turn_state.map (fun e => e.class_name)).foldl
      (fun st a => dictSet st a (some true))
      ((t0.end_of_turn_state.map (fun e => e.class_name)).foldl
        (fun st a => dictSet st a (some false))
        (API_LIST.map (fun a => (a, (none : Option Bool)))))), ?_, ?_⟩
  · simp only [check_api_state_mismatch, hget0]
    rw [if_pos h2]
  · intro a
    rw [lookupDict_foldl_set, lookupDict_foldl_set, lookupDict_init]
    have hfirst : (a ∈ t0.end_of_turn_state.map (fun e => e.class_name)) ↔
        inFirstTurnState df a = true := by
      simp [inFirstTurnState, hcons, List.mem_map]
    by_cases hf : inFirstTurnState df a = true
    · rw [if_pos (hfirst.mpr hf), hf]
      simp
    · have ha : a ∉ t0.end_of_turn_state.map (fun e => e.class_name) :=
        fun hc => hf (hfirst.mp hc)
      have hf' := Bool.eq_false_iff.mpr hf
      rw [if_neg ha, if_neg ha, hf']
      simp

/-- C2 counterexample: with the length invariant violated, `MathAPI`
appears in the transcript (second turn) yet is NOT marked mismatch — it
reads not-applicable, because only the first turn's APIs are marked; and on
a zero-turn invariant-violating transcript the function faults rather than
degrading to worst case. -/
theorem c2_check_counterexample :
    apiAppears df2c "MathAPI" = true ∧
    df2c.ground_truth_log.length ≠ df2c.turn_responses.length + 1 ∧
    (∃ m, check_api_state_mismatch df2c = Except.ok m ∧
      lookupDict m "MathAPI" = some none) ∧
    check_api_state_mismatch df2e = Except.error Fault.indexError := by
  refine ⟨rfl, by decide,
    ⟨[("GorillaFileSystem", some true), ("MathAPI", none), ("MessageAPI", none),
      ("TwitterAPI", none), ("TicketAPI", none), ("TradingBot", none),
      ("TravelAPI", none), ("VehicleControlAPI", none)], rfl, rfl⟩, rfl⟩

/-- Witness for the amended C2 theorem at the concrete transcript `df2c`. -/
theorem c2_check_witness :
    ∃ m, check_api_state_mismatch df2c = Except.ok m ∧ ∀ a : String,
      lookupDict m a =
        if inFirstTurnState df2c a then some (some true)
        else if a ∈ API_LIST then some none
        else none :=
  c2_check_length_violation_amended df2c (by decide) (by decide)

/-- The turn loop of `task_process_rate`, started at suffix position `k`,
returns the first mismatching turn index (at or after `k`) divided by the
turn count, or the infinity sentinel, provided the ground-truth log is long
enough. -/
theorem tprGo_spec (df : Transcript) :
    ∀ (l : List Turn) (k : Nat),
    df.turn_responses.drop k = l →
    df.turn_responses.length + 1 ≤ df.ground_truth_log.length →
    tprGo df.ground_truth_log df.turn_responses.length (l.enumFrom k) =
      Except.ok
        (match (List.range' k l.length).find? (fun i => stateMismatchAt df i) with
         | some i => RateVal.val ((i : ℚ) / (df.turn_responses.length : ℚ))
         | none => RateVal.posInf) := by
  intro l
  induction l with
  | nil => intro k _ _; rfl
  | cons t rest ih =>
    intro k hdrop hlen
    have hk : k < df.turn_responses.length := by
      have hlend := congrArg List.length hdrop
      simp [List.length_drop] at hlend
      omega
    rw [List.drop_eq_getElem_cons hk] at hdrop
    have hdt : df.turn_responses[k] = t := (List.cons.injEq _ _ _ _ ▸ hdrop).1
    have hdrest : df.turn_responses.drop (k + 1) = rest :=
      (List.cons.injEq _ _ _ _ ▸ hdrop).2
    have hturn : df.turn_responses.get? k = some t := by
      rw [List.get?_eq_getElem?]
      rw [List.getElem?_eq_some_iff]
      exact ⟨hk, hdt⟩
    have hglt : k + 1 < df.ground_truth_log.length := by omega
    obtain ⟨g, hg⟩ : ∃ g, df.ground_truth_log.get? (k + 1) = some g := by
      rw [List.get?_eq_getElem?]
      exact ⟨_, List.getElem?_eq_some_iff.mpr ⟨hglt, rfl⟩⟩
    have hsm : stateMismatchAt df k =
        (List.zip t.end_of_turn_state g).any (fun p => !(p.1 == p.2)) := by
      simp only [stateMismatchAt, hturn, hg]
    rw [List.enumFrom_cons]
    simp only [tprGo, hg, List.length_cons]
    rw [List.range'_succ]
    by_cases hc : stateMismatchAt df k = true
    · rw [List.find?_cons_of_pos _ hc]
      have hcond : ((List.zip t.end_of_turn_state g).any (fun p => !(p.1 == p.2))) = true := by
        rw [← hsm]; exact hc
      rw [if_pos hcond]
    · rw [List.find?_cons_of_neg _ hc]
      have hcond : ¬(((List.zip t.end_of_turn_state g).any (fun p => !(p.1 == p.2))) = true) := by
        rw [← hsm]; exact hc
      rw [if_neg hcond]
      exact ih (k + 1) hdrest hlen

/-- C3 (amended): provided the ground-truth log has at least one more entry
than there are turns (in particular whenever the length invariant holds),
`task_process_rate` scans turns in order and, at the first turn whose
positional comparison finds any unequal pair, returns that turn's
zero-based index divided by the turn count — a value in [0,1) — and
returns positive infinity when no turn mismatches; those are then the only
two outcomes.  (Without that proviso the function can instead fault on
`ground_truth_log[turn_idx + 1]`.) -/
theorem c3_task_process_rate_amended (df : Transcript)
    (h : df.turn_responses.length + 1 ≤ df.ground_truth_log.length) :
    task_process_rate df =
      Except.ok
        (match firstMismatchIdx df with
         | some i => RateVal.val ((i : ℚ) / (df.turn_responses.length : ℚ))
         | none => RateVal.posInf) ∧
    ∀ i, firstMismatchIdx df = some i →
      0 ≤ (i : ℚ) / (df.turn_responses.length : ℚ) ∧
      (i : ℚ) / (df.turn_responses.length : ℚ) < 1 := by
  constructor
  · have hGo := tprGo_spec df df.turn_responses 0 (by simp) h
    unfold task_process_rate firstMismatchIdx
    rw [List.range_eq_range']
    rw [List.enum_eq_enumFrom]
    exact hGo
  · intro i hi
    have hmem : i ∈ List.range df.turn_responses.length :=
      List.mem_of_find?_eq_some hi
    have hin : i < df.turn_responses.length := List.mem_range.mp hmem
    have hn0 : 0 < df.turn_responses.length := by omega
    have hn : (0 : ℚ) < (df.turn_responses.length : ℚ) := by exact_mod_cast hn0
    constructor
    · positivity
    · rw [div_lt_one hn]
      exact_mod_cast hin

/-- C3 counterexample: on a one-turn transcript whose ground-truth log is
too short, `task_process_rate` neither returns an index ratio nor positive
infinity — it faults on `ground_truth_log[turn_idx + 1]`, a third outcome
the claim excludes. -/
theorem c3_task_process_rate_counterexample :
    task_process_rate df3e = Except.error Fault.indexError ∧
    df3e.turn_responses.length = 1 := by
  exact ⟨rfl, rfl⟩

/-- Witness for the amended C3 theorem: a turn-0 mismatch over one turn
gives 0/1 = 0. -/
theorem c3_task_process_rate_witness :
    task_process_rate df3w = Except.ok (RateVal.val 0) := by
  rw [(c3_task_process_rate_amended df3w (by decide)).1,
    show firstMismatchIdx df3w = some 0 from rfl]
  norm_num [df3w]

/-- The turn loop of `average_turn_success_rate`, started at suffix
position `k`, counts the fully matching turns, provided the ground-truth
log is long enough. -/
theorem atsrGo_spec (df : Transcript) :
    ∀ (l : List Turn) (k : Nat),
    df.turn_responses.drop k = l →
    df.turn_responses.length + 1 ≤ df.ground_truth_log.length →
    atsrGo df.ground_truth_log (l.enumFrom k) =
      Except.ok ((List.range' k l.length).countP (fun i => turnMatchB df i)) := by
  intro l
  induction l with
  | nil => intro k _ _; rfl
  | cons t rest ih =>
    intro k hdrop hlen
    have hk : k < df.turn_responses.length := by
      have hlend := congrArg List.length hdrop
      simp [List.length_drop] at hlend
      omega
    rw [List.drop_eq_getElem_cons hk] at hdrop
    have hdt : df.turn_responses[k] = t := (List.cons.injEq _ _ _ _ ▸ hdrop).1
    have hdrest : df.turn_responses.drop (k + 1) = rest :=
      (List.cons.injEq _ _ _ _ ▸ hdrop).2
    have hturn : df.turn_responses.get? k = some t := by
      rw [List.get?_eq_getElem?, List.getElem?_eq_some_iff]
      exact ⟨hk, hdt⟩
    have hglt : k + 1 < df.ground_truth_log.length := by omega
    obtain ⟨g, hg⟩ : ∃ g, df.ground_truth_log.get? (k + 1) = some g := by
      rw [List.get?_eq_getElem?]
      exact ⟨_, List.getElem?_eq_some_iff.mpr ⟨hglt, rfl⟩⟩
    have htm : turnMatchB df k =
        (List.zip t.end_of_turn_state g).all (fun p => p.1 == p.2) := by
      simp only [turnMatchB, hturn, hg]
    rw [List.enumFrom_cons]
    simp only [atsrGo, hg, List.length_cons, ih (k + 1) hdrest hlen]
    rw [List.range'_succ, List.countP_cons, ← htm, Nat.add_comm]

/-- C4 (amended): provided the ground-truth log has at least one more entry
than there are turns, `average_turn_success_rate` faults with a
division-by-zero condition on a zero-turn transcript, and otherwise returns
the proportion of turns all of whose positional pairs are structurally
equal, which lies in [0, 1].  (Without that proviso the function can
instead fault on `ground_truth_log[turn_idx + 1]`.) -/
theorem c4_average_turn_success_rate_amended (df : Transcript)
    (h : df.turn_responses.length + 1 ≤ df.ground_truth_log.length) :
    (df.turn_responses.length = 0 →
      average_turn_success_rate df = Except.error Fault.divByZero) ∧
    (df.turn_responses.length ≠ 0 →
      average_turn_success_rate df = Except.ok
        ((((List.range df.turn_responses.length).countP (fun i => turnMatchB df i)) : ℚ)
          / (df.turn_responses.length : ℚ))) ∧
    ∀ q : ℚ, average_turn_success_rate df = Except.ok q → 0 ≤ q ∧ q ≤ 1 := by
  have hGo := atsrGo_spec df df.turn_responses 0 (by simp) h
  have havg : average_turn_success_rate df =
      (if df.turn_responses.length = 0 then Except.error Fault.divByZero
       else Except.ok
        ((((List.range df.turn_responses.length).countP (fun i => turnMatchB df i)) : ℚ)
          / (df.turn_responses.length : ℚ))) := by
    unfold average_turn_success_rate
    rw [List.enum_eq_enumFrom, List.range_eq_range']
    simp only [hGo]
  refine ⟨?_, ?_, ?_⟩
  · intro hn; rw [havg, if_pos hn]
  · intro hn; rw [havg, if_neg hn]
  · intro q hq
    rw [havg] at hq
    by_cases hn : df.turn_responses.length = 0
    · rw [if_pos hn] at hq
      exact absurd hq (by simp)
    · rw [if_neg hn] at hq
      have hq' : q = (((List.range df.turn_responses.length).countP
          (fun i => turnMatchB df i)) : ℚ) / (df.turn_responses.length : ℚ) := by
        have := hq.symm
        simpa using this
      have hcount : (List.range df.turn_responses.length).countP
          (fun i => turnMatchB df i) ≤ df.turn_responses.length := by
        calc (List.range df.turn_responses.length).countP (fun i => turnMatchB df i)
            ≤ (List.range df.turn_responses.length).length := List.countP_le_length _
          _ = df.turn_responses.length := List.length_range _
      have hnpos : (0 : ℚ) < (df.turn_responses.length : ℚ) := by
        have : 0 < df.turn_responses.length := Nat.pos_of_ne_zero hn
        exact_mod_cast this
      rw [hq']
      constructor
      · positivity
      · rw [div_le_one hnpos]
        exact_mod_cast hcount

/-- C4 counterexample: on a one-turn transcript whose ground-truth log is
too short, `average_turn_success_rate` neither returns a proportion nor
raises division-by-zero — it faults on `ground_truth_log[turn_idx + 1]`. -/
theorem c4_average_turn_success_rate_counterexample :
    average_turn_success_rate df4e = Except.error Fault.indexError ∧
    df4e.turn_responses.length = 1 := by
  exact ⟨rfl, rfl⟩

/-- Witness for the amended C4 theorem: one matching turn of two gives
1/2. -/
theorem c4_average_turn_success_rate_witness :
    average_turn_success_rate df4w = Except.ok (1 / 2) := by
  rw [(c4_average_turn_success_rate_amended df4w (by decide)).2.1 (by decide),
    show (List.range df4w.turn_responses.length).countP
      (fun i => turnMatchB df4w i) = 1 from rfl]
  norm_num [df4w]

/-- C5: on the three-turn transcript where turn 0 mismatches and turns 1
and 2 match, `task_process_rate` is 0/3 = 0, `average_turn_success_rate` is
2/3, and `soft_average_turn_success_rate` is
(0 + (1 - e^(-1)) + (1 - e^(-2))) / 3, turn 1 contributing 1 - e^(-1) and
turn 2 contributing 1 - e^(-2). -/
theorem c5_three_turn_scenario :
    task_process_rate df5c = Except.ok (RateVal.val 0) ∧
    average_turn_success_rate df5c = Except.ok (2 / 3) ∧
    soft_average_turn_success_rate df5c =
      Except.ok ((0 + (1 - Real.exp (-1)) + (1 - Real.exp (-2))) / 3) := by
  refine ⟨?_, ?_, ?_⟩
  · have h1 : task_process_rate df5c =
        Except.ok (RateVal.val (((0 : ℕ) : ℚ) / ((3 : ℕ) : ℚ))) := rfl
    rw [h1]
    norm_num
  · have h2 : average_turn_success_rate df5c =
        Except.ok (((2 : ℕ) : ℚ) / ((3 : ℕ) : ℚ)) := rfl
    rw [h2]
    norm_num
  · have hgo : softGo df5c.ground_truth_log df5c.turn_responses.enum 0 none =
        Except.ok (0 + (1 - Real.exp (-(((1 : ℕ) : ℝ) - ((0 : ℕ) : ℝ))))
          + (1 - Real.exp (-(((2 : ℕ) : ℝ) - ((0 : ℕ) : ℝ))))) := rfl
    unfold soft_average_turn_success_rate
    rw [hgo]
    show (if df5c.turn_responses.length = 0 then Except.error Fault.divByZero
      else Except.ok ((0 + (1 - Real.exp (-(((1 : ℕ) : ℝ) - ((0 : ℕ) : ℝ))))
        + (1 - Real.exp (-(((2 : ℕ) : ℝ) - ((0 : ℕ) : ℝ)))))
          / (df5c.turn_responses.length : ℝ))) = _
    norm_num [df5c]

/-- A fully matching turn forces its ground-truth index to be in range. -/
theorem turnMatchB_gt_lt (df : Transcript) (i : Nat)
    (h : turnMatchB df i = true) : i + 1 < df.ground_truth_log.length := by
  unfold turnMatchB at h
  cases hc1 : df.turn_responses.get? i with
  | none =>
    rw [hc1] at h
    cases hc2 : df.ground_truth_log.get? (i + 1) with
    | none => rw [hc2] at h; exact absurd h (by simp)
    | some g => rw [hc2] at h; exact absurd h (by simp)
  | some t =>
    cases hc2 : df.ground_truth_log.get? (i + 1) with
    | none => rw [hc1, hc2] at h; exact absurd h (by simp)
    | some g =>
      obtain ⟨hlt, _⟩ := List.get?_eq_some.mp hc2
      exact hlt

/-- A fully matching turn also forces its own index to be in range. -/
theorem turnMatchB_turn_lt (df : Transcript) (i : Nat)
    (h : turnMatchB df i = true) : i < df.turn_responses.length := by
  unfold turnMatchB at h
  cases hc1 : df.turn_responses.get? i with
  | none =>
    rw [hc1] at h
    cases hc2 : df.ground_truth_log.get? (i + 1) with
    | none => rw [hc2] at h; exact absurd h (by simp)
    | some g => rw [hc2] at h; exact absurd h (by simp)
  | some t =>
    obtain ⟨hlt, _⟩ := List.get?_eq_some.mp hc1
    exact hlt

/-- The turn loop of `soft_average_turn_success_rate`, when every remaining
turn fully matches and no incorrect turn has been seen, adds one full point
per turn. -/
theorem softGo_all_match (df : Transcript) :
    ∀ (l : List Turn) (k : Nat) (score : ℝ),
    df.turn_responses.drop k = l →
    (∀ i, i < df.turn_responses.length → turnMatchB df i = true) →
    softGo df.ground_truth_log (l.enumFrom k) score none =
      Except.ok (score + l.length) := by
  intro l
  induction l with
  | nil =>
    intro k score _ _
    show Except.ok score = _
    norm_num
  | cons t rest ih =>
    intro k score hdrop hall
    have hk : k < df.turn_responses.length := by
      have hlend := congrArg List.length hdrop
      simp [List.length_drop] at hlend
      omega
    rw [List.drop_eq_getElem_cons hk] at hdrop
    have hdt : df.turn_responses[k] = t := (List.cons.injEq _ _ _ _ ▸ hdrop).1
    have hdrest : df.turn_responses.drop (k + 1) = rest :=
      (List.cons.injEq _ _ _ _ ▸ hdrop).2
    have hturn : df.turn_responses.get? k = some t := by
      rw [List.get?_eq_getElem?, List.getElem?_eq_some_iff]
      exact ⟨hk, hdt⟩
    have hmatch : turnMatchB df k = true := hall k hk
    have hglt : k + 1 < df.ground_truth_log.length := turnMatchB_gt_lt df k hmatch
    obtain ⟨g, hg⟩ : ∃ g, df.ground_truth_log.get? (k + 1) = some g := by
      rw [List.get?_eq_getElem?]
      exact ⟨_, List.getElem?_eq_some_iff.mpr ⟨hglt, rfl⟩⟩
    have hcond : (List.zip t.end_of_turn_state g).all (fun p => p.1 == p.2) = true := by
      have h := hmatch
      unfold turnMatchB at h
      rw [hturn, hg] at h
      exact h
    rw [List.enumFrom_cons]
    simp only [softGo, hg, hcond, if_true]
    rw [ih (k + 1) (score + 1) hdrest hall]
    rw [List.length_cons]
    push_cast
    ring_nf

/-- C6: on any transcript with at least one turn in which every turn's
positional state comparison fully matches ground truth, the average and
soft success rates agree and both equal exactly 1. -/
theorem c6_zero_incorrect_rates (df : Transcript)
    (h1 : df.turn_responses ≠ [])
    (h2 : ∀ i, i < df.turn_responses.length → turnMatchB df i = true) :
    average_turn_success_rate df = Except.ok 1 ∧
    soft_average_turn_success_rate df = Except.ok 1 := by
  have hn : 0 < df.turn_responses.length := List.length_pos.mpr h1
  have hn' : df.turn_responses.length ≠ 0 := Nat.pos_iff_ne_zero.mp hn
  have hlen : df.turn_responses.length + 1 ≤ df.ground_truth_log.length := by
    have := turnMatchB_gt_lt df (df.turn_responses.length - 1)
      (h2 _ (by omega))
    omega
  have hcast : ((df.turn_responses.length : ℝ)) ≠ 0 := by exact_mod_cast hn'
  have hcastq : ((df.turn_responses.length : ℚ)) ≠ 0 := by exact_mod_cast hn'
  constructor
  · have hGo := atsrGo_spec df df.turn_responses 0 (by simp) hlen
    have hcount : (List.range' 0 df.turn_responses.length).countP
        (fun i => turnMatchB df i) = df.turn_responses.length := by
      have hfull : (List.range df.turn_responses.length).countP
          (fun i => turnMatchB df i) =
          (List.range df.turn_responses.length).length :=
        List.countP_eq_length.mpr (fun a ha => h2 a (List.mem_range.mp ha))
      rw [← List.range_eq_range', hfull, List.length_range]
    unfold average_turn_success_rate
    rw [List.enum_eq_enumFrom]
    rw [hGo, hcount]
    show (if df.turn_responses.length = 0 then Except.error Fault.divByZero
      else Except.ok ((df.turn_responses.length : ℚ) / (df.turn_responses.length : ℚ)))
        = Except.ok 1
    rw [if_neg hn', div_self hcastq]
  · have hsoft := softGo_all_match df df.turn_responses 0 0 (by simp) h2
    unfold soft_average_turn_success_rate
    rw [List.enum_eq_enumFrom]
    rw [hsoft]
    show (if df.turn_responses.length = 0 then Except.error Fault.divByZero
      else Except.ok ((0 + (df.turn_responses.length : ℝ)) / (df.turn_responses.length : ℝ)))
        = Except.ok 1
    rw [if_neg hn', zero_add, div_self hcast]

/-- Witness for the C6 theorem at a concrete fully matching transcript. -/
theorem c6_zero_incorrect_rates_witness :
    average_turn_success_rate df6w = Except.ok 1 ∧
    soft_average_turn_success_rate df6w = Except.ok 1 :=
  c6_zero_incorrect_rates df6w (by decide) (by decide)

/-- A fold of conditional mismatch marks over all-equal pairs changes
nothing. -/
theorem foldl_mark_id :
    ∀ (l : List (ApiState × ApiState)) (st : List (String × Option Bool)),
    (∀ p ∈ l, p.1 = p.2) →
    l.foldl (fun acc p =>
      if p.1 ≠ p.2 then dictSet acc p.1.class_name (some true) else acc) st = st := by
  intro l
  induction l with
  | nil => intro st _; rfl
  | cons p rest ih =>
    intro st h
    have hp : p.1 = p.2 := h p (List.mem_cons_self p rest)
    simp only [List.foldl_cons]
    rw [if_neg (fun hc : p.1 ≠ p.2 => hc hp)]
    exact ih st (fun q hq => h q (List.mem_cons_of_mem _ hq))

/-- When every zipped pair is equal, one turn of the mismatch-marking pass
changes nothing. -/
theorem markMismatchTurn_id (gts ts : List ApiState)
    (h : ∀ p ∈ List.zip gts ts, p.1 = p.2) (st : List (String × Option Bool)) :
    markMismatchTurn st gts ts = st :=
  foldl_mark_id (List.zip gts ts) st h

/-- C10: in the per-turn state comparison shared by
`average_turn_success_rate`, `soft_average_turn_success_rate`,
`task_process_rate` and `check_api_state_mismatch`, snapshots are compared
only pairwise up to the shorter length: a turn whose two snapshots have
different lengths but agree on all shared positions counts as fully
matching — the turn scores as a success for both rates, the process rate
reports no mismatch, and the check marks no API as mismatch. -/
theorem c10_zip_truncation (pred truth g0 : List ApiState)
    (h1 : pred.length ≠ truth.length)
    (h2 : ∀ p ∈ List.zip pred truth, p.1 = p.2) :
    average_turn_success_rate (df10 pred truth g0) = Except.ok 1 ∧
    soft_average_turn_success_rate (df10 pred truth g0) = Except.ok 1 ∧
    task_process_rate (df10 pred truth g0) = Except.ok RateVal.posInf ∧
    ∃ m, check_api_state_mismatch (df10 pred truth g0) = Except.ok m ∧
      ∀ a : String, lookupDict m a ≠ some (some true) := by
  have h2' : ∀ p ∈ List.zip truth pred, p.1 = p.2 := by
    intro p hp
    have hmem : p ∈ (List.zip pred truth).map Prod.swap := by
      rw [List.zip_swap]
      exact hp
    obtain ⟨q, hq, hqe⟩ := List.mem_map.mp hmem
    rw [← hqe]
    exact (h2 q hq).symm
  have hall : (List.zip pred truth).all (fun p => p.1 == p.2) = true := by
    rw [List.all_eq_true]
    intro x hx
    exact beq_iff_eq.mpr (h2 x hx)
  have hany : (List.zip pred truth).any (fun p => !(p.1 == p.2)) = false := by
    rw [List.any_eq_false]
    intro x hx
    simp [h2 x hx]
  refine ⟨?_, ?_, ?_, ?_⟩
  · have havg : average_turn_success_rate (df10 pred truth g0) =
        Except.ok ((((if (List.zip pred truth).all (fun p => p.1 == p.2)
          then 1 else 0) + 0 : ℕ) : ℚ) / ((1 : ℕ) : ℚ)) := rfl
    rw [havg]
    simp only [hall, if_true]
    norm_num
  · have hsound : softGo (df10 pred truth g0).ground_truth_log
        (df10 pred truth g0).turn_responses.enum 0 none =
        (if (List.zip pred truth).all (fun p => p.1 == p.2)
         then Except.ok ((0 : ℝ) + 1) else Except.ok 0) := rfl
    have hsound2 : softGo (df10 pred truth g0).ground_truth_log
        (df10 pred truth g0).turn_responses.enum 0 none = Except.ok ((0 : ℝ) + 1) := by
      rw [hsound]
      simp [hall]
    unfold soft_average_turn_success_rate
    rw [hsound2]
    show (if (df10 pred truth g0).turn_responses.length = 0
        then Except.error Fault.divByZero
        else Except.ok (((0 : ℝ) + 1) / ((df10 pred truth g0).turn_responses.length : ℝ)))
      = Except.ok 1
    norm_num [df10]
  · have htpr : task_process_rate (df10 pred truth g0) =
        (if (List.zip pred truth).any (fun p => !(p.1 == p.2))
         then Except.ok (RateVal.val (((0 : ℕ) : ℚ) / ((1 : ℕ) : ℚ)))
         else Except.ok RateVal.posInf) := rfl
    rw [htpr]
    simp [hany]
  · have hcheck : check_api_state_mismatch (df10 pred truth g0) =
        Except.ok (markMismatchTurn
          ((pred.map (fun e => e.class_name)).foldl
            (fun st a => dictSet st a (some false))
            (API_LIST.map (fun a => (a, (none : Option Bool))))) truth pred) := rfl
    rw [hcheck, markMismatchTurn_id truth pred h2']
    refine ⟨_, rfl, ?_⟩
    intro a
    rw [lookupDict_foldl_set, lookupDict_init]
    by_cases hm : a ∈ pred.map (fun e => e.class_name)
    · simp [hm]
    · by_cases hA : a ∈ API_LIST <;> simp [hm, hA]

/-- Witness for the C10 theorem: prediction `[stA]` against strictly longer
ground truth `[stA, stB]`, equal on the shared position. -/
theorem c10_zip_truncation_witness :
    ([stA].length ≠ [stA, stB].length) ∧
    average_turn_success_rate (df10 [stA] [stA, stB] []) = Except.ok 1 ∧
    soft_average_turn_success_rate (df10 [stA] [stA, stB] []) = Except.ok 1 ∧
    task_process_rate (df10 [stA] [stA, stB] []) = Except.ok RateVal.posInf ∧
    ∃ m, check_api_state_mismatch (df10 [stA] [stA, stB] []) = Except.ok m ∧
      ∀ a : String, lookupDict m a ≠ some (some true) := by
  have h := c10_zip_truncation [stA] [stA, stB] [] (by decide) (by decide)
  exact ⟨by decide, h.1, h.2.1, h.2.2.1, h.2.2.2⟩
